import Mathlib

/-!
Shallow embedding of the `data_scraping` Python package (modules
`api_fetcher.py`, `web_scraper.py`, `data_cleaner.py`) together with proofs
about its pagination loops, error handling and text-normalisation pipeline.

Conventions of the embedding:

* External collaborators (the `requests` HTTP transport, BeautifulSoup
  parsing and selectors, `urllib.parse.urljoin`, the robots policy object,
  `json.loads`, the nltk tokenizer-based helpers) are passed in as function
  parameters, mirroring the request/response contracts they expose to the
  code under study.
* Python exceptions become `Except` values: `requests.RequestException`
  (incl. `raise_for_status` on non-2xx) is `TransportError`, the
  `ValueError` for an unknown HTTP verb is `unsupportedMethod`, the
  robots-denial `PermissionError` is `policy`, and `json.JSONDecodeError`
  is `FormatError`.
* The unbounded `while` loops of the two pagination routines are embedded
  with an explicit fuel argument; `none` means the fuel was exhausted
  before the loop terminated on its own.
* Python dict mutation (`params[next_page_param] = page`) is made explicit
  by threading the mapping through the loop and returning its final state;
  `caller_params_after` encodes CPython aliasing: `params = params or {}`
  rebinds the local name to a fresh dict exactly when the caller's argument
  is falsy (absent or empty), otherwise the caller's own dict is mutated.
* Strings processed by the cleaner are `List Char`; the regex
  `re.sub('<.*?>', '', text)` and `str.lower` are modelled on the character
  level (ASCII case mapping, `.` not matching a newline).
-/

namespace DataScraping

/-! ## Query parameters (Python dict of str keys to str or int values) -/

/-- A value stored in a Python params dict: the caller's string values or the
integer page counter written by `fetch_paginated_data`. -/
inductive PValue where
  | str (s : String)
  | num (n : Nat)
deriving DecidableEq

/-- A Python dict used for query parameters, as an insertion-ordered
association list (CPython dicts preserve insertion order). -/
abbrev Params := List (String × PValue)

/-- `d[k] = v` on a Python dict: overwrite in place if the key is present,
otherwise append the new binding at the end. -/
def setKey : Params → String → PValue → Params
  | [], k, v => [(k, v)]
  | (k', v') :: rest, k, v =>
    if k' = k then (k', v) :: rest else (k', v') :: setKey rest k v

/-- `d.get(k)` on a Python dict. -/
def getKey : Params → String → Option PValue
  | [], _ => none
  | (k', v) :: rest, k => if k' = k then some v else getKey rest k

/-! ## Errors -/

/-- `requests.RequestException`, including the `HTTPError` raised by
`raise_for_status` on a non-2xx response. -/
structure TransportError where
  msg : String
deriving DecidableEq

/-- `json.JSONDecodeError` from `json.loads` on a malformed fragment. -/
structure FormatError where
  msg : String
deriving DecidableEq

/-- Errors escaping `APIFetcher._make_request`: the `ValueError` for an HTTP
verb the dispatcher does not implement, or a propagated transport failure. -/
inductive ApiError where
  | unsupportedMethod (m : String)
  | transport (e : TransportError)
deriving DecidableEq

/-- Errors escaping `WebScraper.fetch_page`: the robots `PermissionError`
(the spec's `PolicyError`), the `ValueError` for an unknown verb, or a
propagated transport failure. -/
inductive ScrapeError where
  | policy (url : String)
  | unsupportedMethod (m : String)
  | transport (e : TransportError)
deriving DecidableEq

/-! ## APIFetcher -/

/-- One HTTP request as handed to the `requests` library: `requests.get` and
`requests.delete` receive no body, so `_make_request` fills `payload` and
`jsonBody` with `none` for them. -/
structure ApiRequest where
  url : String
  params : Params
  method : String
  req_headers : List (String × String)
  payload : Option String
  jsonBody : Option String

/-- One HTTP response as seen by `fetch_paginated_data`: `items` is the
decoded JSON list body (`response.json()`), `hasNext` tells whether
`'next' in response.links`, `resp_headers` is `response.headers`. -/
structure ApiResponse where
  items : List String
  hasNext : Bool
  resp_headers : List (String × String)
deriving DecidableEq

/-- `APIFetcher._make_request`: dispatch on the string verb, handing the
request to the external transport; `requests.get`/`requests.delete` are
called without `data`/`json`; any other verb raises
`ValueError("Unsupported HTTP method: ...")` before any network call.
The `try/except` block only logs and re-raises, so it is the identity on
the error path. -/
def make_request (transport : ApiRequest → Except TransportError ApiResponse)
    (req_headers : List (String × String)) (url : String) (params : Params)
    (method : String) (payload jsonBody : Option String) :
    Except ApiError ApiResponse :=
  if method = "GET" then
    (transport ⟨url, params, "GET", req_headers, none, none⟩).mapError ApiError.transport
  else if method = "POST" then
    (transport ⟨url, params, "POST", req_headers, payload, jsonBody⟩).mapError ApiError.transport
  else if method = "PUT" then
    (transport ⟨url, params, "PUT", req_headers, payload, jsonBody⟩).mapError ApiError.transport
  else if method = "DELETE" then
    (transport ⟨url, params, "DELETE", req_headers, none, none⟩).mapError ApiError.transport
  else
    Except.error (ApiError.unsupportedMethod method)

/-- `APIFetcher.fetch_data`: one request to `base_url/endpoint`, returning
the decoded JSON body. -/
def fetch_data (transport : ApiRequest → Except TransportError ApiResponse)
    (req_headers : List (String × String)) (base_url endpoint : String)
    (params : Params) (method : String) (payload jsonBody : Option String) :
    Except ApiError (List String) :=
  (make_request transport req_headers (base_url ++ "/" ++ endpoint) params method
    payload jsonBody).map ApiResponse.items

/-- `APIFetcher.fetch_headers`: a request with `method='HEAD'` to
`base_url/endpoint`, returning `response.headers`. -/
def fetch_headers (transport : ApiRequest → Except TransportError ApiResponse)
    (req_headers : List (String × String)) (base_url endpoint : String)
    (params : Params) : Except ApiError (List (String × String)) :=
  (make_request transport req_headers (base_url ++ "/" ++ endpoint) params "HEAD"
    none none).map ApiResponse.resp_headers

/-- The per-instance configuration and per-call constants of one
`fetch_paginated_data` invocation: `self.base_url`, `self.headers` and the
call's `endpoint`, `method`, `data`, `json` and `next_page_param` arguments,
all of which stay fixed across loop iterations. -/
structure ApiCtx where
  transport : ApiRequest → Except TransportError ApiResponse
  base_url : String
  req_headers : List (String × String)
  endpoint : String
  method : String
  payload : Option String
  jsonBody : Option String
  next_page_param : String

/-- The body of the `while True` loop of `APIFetcher.fetch_paginated_data`.
State per iteration: the page counter, the (shared, mutated) params dict,
the `all_data` accumulator, and the trace of the params snapshot sent with
each network request. Returns `some (finalParams, requestTrace, result)`
when the loop finishes within `fuel` iterations. The `params = params or {}`
line is value-level the identity here (the initial mapping is materialised
by the wrapper, and from iteration one on the dict contains the page key,
hence is truthy). -/
def fetch_paginated_loop (ctx : ApiCtx) :
    Nat → Nat → Params → List String → List Params →
    Option (Params × List Params × Except ApiError (List String))
  | 0, _, _, _, _ => none
  | fuel+1, page, params, acc, trace =>
    let ps := setKey params ctx.next_page_param (PValue.num page)
    match make_request ctx.transport ctx.req_headers (ctx.base_url ++ "/" ++ ctx.endpoint)
        ps ctx.method ctx.payload ctx.jsonBody with
    | Except.error e => some (ps, trace ++ [ps], Except.error e)
    | Except.ok resp =>
      if resp.hasNext then
        fetch_paginated_loop ctx fuel (page+1) ps (acc ++ resp.items) (trace ++ [ps])
      else
        some (ps, trace ++ [ps], Except.ok (acc ++ resp.items))

/-- `APIFetcher.fetch_paginated_data`: run the loop from `start_page` with
the caller-supplied params dict (`params or {}` materialises `[]` when the
caller passed nothing or an empty dict). -/
def fetch_paginated_data (ctx : ApiCtx) (start_page : Nat)
    (callerParams : Option Params) (fuel : Nat) :
    Option (Params × List Params × Except ApiError (List String)) :=
  fetch_paginated_loop ctx fuel start_page (callerParams.getD []) [] []

/-- The params dict the caller observes after `fetch_paginated_data` returns
or raises. CPython aliasing: `params = params or {}` keeps the caller's own
dict object exactly when the caller passed a non-empty dict, in which case
every in-place write is visible to the caller; a `None` or empty argument is
replaced by a fresh dict and the caller sees no change. -/
def caller_params_after (callerParams : Option Params) (finalParams : Params) :
    Option Params :=
  match callerParams with
  | none => none
  | some l => if l.isEmpty then some l else some finalParams

/-- The request `fetch_paginated_data` issues for page number `page`, given
that the params dict started the call as `initP`: all fixed fields plus the
page counter written over `next_page_param`. -/
def page_request (ctx : ApiCtx) (initP : Params) (page : Nat) :
    Except ApiError ApiResponse :=
  make_request ctx.transport ctx.req_headers (ctx.base_url ++ "/" ++ ctx.endpoint)
    (setKey initP ctx.next_page_param (PValue.num page)) ctx.method ctx.payload ctx.jsonBody

/-- A well-formed numbered multi-page source starting at page `page`: every
response up to the last carries a `next` link relation, the last does not,
and the transport answers the exact request the loop sends for each page
number. -/
inductive ApiChain (ctx : ApiCtx) (initP : Params) : Nat → List ApiResponse → Prop where
  | last (page : Nat) (r : ApiResponse) :
      page_request ctx initP page = Except.ok r → r.hasNext = false →
      ApiChain ctx initP page [r]
  | step (page : Nat) (r : ApiResponse) (rest : List ApiResponse) :
      page_request ctx initP page = Except.ok r → r.hasNext = true →
      ApiChain ctx initP (page+1) rest →
      ApiChain ctx initP page (r :: rest)

/-- A numbered paginated run that reaches a fetch failure: `n` counts the
requests issued, the first `n-1` pages succeed and carry a `next` link, and
the `n`-th request fails with `e`. -/
inductive ApiAbort (ctx : ApiCtx) (initP : Params) : Nat → Nat → ApiError → Prop where
  | here (page : Nat) (e : ApiError) :
      page_request ctx initP page = Except.error e → ApiAbort ctx initP page 1 e
  | step (page n : Nat) (r : ApiResponse) (e : ApiError) :
      page_request ctx initP page = Except.ok r → r.hasNext = true →
      ApiAbort ctx initP (page+1) n e →
      ApiAbort ctx initP page (n+1) e

/-- The loop body of `APIFetcher.fetch_data_with_retry`, structurally
recursive in `remaining = retries - attempt`. `attempt_fetch k` is the value
of `self.fetch_data(...)` on the `k`-th attempt against the stateful
external transport. Only `requests.RequestException` is caught, so an
`unsupportedMethod` error escapes the `try` immediately; a transport error
is re-raised when `attempt + 1 == retries`, otherwise the loop retries.
`none` is the implicit Python `None` returned when the loop never runs
(`retries <= 0`). -/
def retry_go (attempt_fetch : Nat → Except ApiError (List String)) (retries : Nat) :
    Nat → Nat → Option (Except ApiError (List String))
  | _, 0 => none
  | attempt, remaining+1 =>
    match attempt_fetch attempt with
    | Except.ok v => some (Except.ok v)
    | Except.error (ApiError.unsupportedMethod m) =>
        some (Except.error (ApiError.unsupportedMethod m))
    | Except.error (ApiError.transport e) =>
        if attempt + 1 = retries then some (Except.error (ApiError.transport e))
        else retry_go attempt_fetch retries (attempt+1) remaining

/-- `APIFetcher.fetch_data_with_retry`: start at attempt 0 with the full
budget. -/
def fetch_data_with_retry (attempt_fetch : Nat → Except ApiError (List String))
    (retries : Nat) : Option (Except ApiError (List String)) :=
  retry_go attempt_fetch retries 0 retries

/-! ## WebScraper -/

/-- The collaborators and per-instance state of a `WebScraper`:
`robots_ok u` is `self.robot_parser.can_fetch(self.user_agent, u)`,
`transport u m p` is the `requests` call followed by `raise_for_status`
and `.text`, `urljoin` is `urllib.parse.urljoin`, and `parse_html` is
`BeautifulSoup(html, 'html.parser')` producing an opaque document. -/
structure ScraperCtx (Soup : Type) where
  base_url : String
  robots_ok : String → Bool
  transport : String → String → Params → Except TransportError String
  urljoin : String → String → String
  parse_html : String → Soup

/-- `WebScraper.fetch_page`: join the target with the base URL, consult the
robots policy first and raise `PermissionError` (the spec's `PolicyError`)
when denied, then dispatch `GET`/`POST` to the transport and `ValueError`
for any other verb. The first component is the trace of network calls made
(URL and verb); a denied or unsupported request performs none. -/
def fetch_page {Soup : Type} (ctx : ScraperCtx Soup) (url : String)
    (params : Params) (method : String) :
    List (String × String) × Except ScrapeError String :=
  let full_url := ctx.urljoin ctx.base_url url
  if ctx.robots_ok full_url = false then
    ([], Except.error (ScrapeError.policy full_url))
  else if method = "GET" then
    ([(full_url, "GET")], (ctx.transport full_url "GET" params).mapError ScrapeError.transport)
  else if method = "POST" then
    ([(full_url, "POST")], (ctx.transport full_url "POST" params).mapError ScrapeError.transport)
  else
    ([], Except.error (ScrapeError.unsupportedMethod method))

/-- `WebScraper.handle_pagination`: the `while url:` loop. `parser_func` is
the caller's extraction function, `next_href s` models
`soup.select_one(next_page_selector)` followed by `.get('href')` (`none`
when the selector matches nothing or the anchor has no `href` attribute).
The loop follows `urljoin(base_url, href)` while the anchor's `href` is
truthy and stops otherwise; a falsy `url` ends the `while` immediately.
Fuel-indexed; `none` means the fuel ran out first. -/
def handle_pagination {Soup Item : Type} (ctx : ScraperCtx Soup)
    (parser_func : Soup → List Item) (next_href : Soup → Option String)
    (params : Params) (method : String) :
    Nat → String → List Item → Option (Except ScrapeError (List Item))
  | 0, _, _ => none
  | fuel+1, url, acc =>
    if url = "" then some (Except.ok acc)
    else
      match (fetch_page ctx url params method).2 with
      | Except.error e => some (Except.error e)
      | Except.ok html =>
        let soup := ctx.parse_html html
        let acc2 := acc ++ parser_func soup
        match next_href soup with
        | some href =>
          if href = "" then some (Except.ok acc2)
          else handle_pagination ctx parser_func next_href params method fuel
                 (ctx.urljoin ctx.base_url href) acc2
        | none => some (Except.ok acc2)

/-- A well-formed link-based multi-page source rooted at `url`: every page
up to the last exposes a non-empty `next` anchor pointing (via `urljoin`)
at the next page, the last page has no `next` link, and every fetch
succeeds. The index list collects each page's extracted items. -/
inductive ScrapeChain {Soup Item : Type} (ctx : ScraperCtx Soup)
    (parser_func : Soup → List Item) (next_href : Soup → Option String)
    (params : Params) (method : String) : String → List (List Item) → Prop where
  | last (url : String) (html : String) :
      url ≠ "" →
      (fetch_page ctx url params method).2 = Except.ok html →
      next_href (ctx.parse_html html) = none →
      ScrapeChain ctx parser_func next_href params method url
        [parser_func (ctx.parse_html html)]
  | step (url html href : String) (rest : List (List Item)) :
      url ≠ "" →
      (fetch_page ctx url params method).2 = Except.ok html →
      next_href (ctx.parse_html html) = some href → href ≠ "" →
      ScrapeChain ctx parser_func next_href params method
        (ctx.urljoin ctx.base_url href) rest →
      ScrapeChain ctx parser_func next_href params method url
        (parser_func (ctx.parse_html html) :: rest)

/-- A link-based paginated run that reaches a fetch failure after `n`
fetches: the first `n-1` pages succeed and chain via their `next` anchors,
and the `n`-th fetch fails with `e`. -/
inductive ScrapeAbort {Soup Item : Type} (ctx : ScraperCtx Soup)
    (parser_func : Soup → List Item) (next_href : Soup → Option String)
    (params : Params) (method : String) : String → Nat → ScrapeError → Prop where
  | here (url : String) (e : ScrapeError) :
      url ≠ "" →
      (fetch_page ctx url params method).2 = Except.error e →
      ScrapeAbort ctx parser_func next_href params method url 1 e
  | step (url html href : String) (n : Nat) (e : ScrapeError) :
      url ≠ "" →
      (fetch_page ctx url params method).2 = Except.ok html →
      next_href (ctx.parse_html html) = some href → href ≠ "" →
      ScrapeAbort ctx parser_func next_href params method
        (ctx.urljoin ctx.base_url href) n e →
      ScrapeAbort ctx parser_func next_href params method url (n+1) e

/-- `WebScraper.extract_json_ld`: walk the `application/ld+json` script
blocks in document order, `json.loads` each, and on `JSONDecodeError`
`continue` with the next block, keeping only the successfully parsed
payloads. `json_loads` is the external JSON parser collaborator. -/
def extract_json_ld {J : Type} (json_loads : String → Except FormatError J) :
    List String → List J
  | [] => []
  | s :: rest =>
    match json_loads s with
    | Except.ok j => j :: extract_json_ld json_loads rest
    | Except.error _ => extract_json_ld json_loads rest

/-! ## DataCleaner: text pipeline -/

/-- Lazy-regex search step for `re.sub('<.*?>', '', text)`: given the
characters after a `<`, the index of the first `>` reachable without
crossing a newline (Python's `.` does not match `'\n'`), or `none` when the
candidate match fails at this start position. -/
def findGtIdx : List Char → Option Nat
  | [] => none
  | c :: rest =>
    if c = '>' then some 0
    else if c = '\n' then none
    else (findGtIdx rest).map (· + 1)

/-- `DataCleaner.remove_html_tags`, i.e. `re.sub('<.*?>', '', text)`:
scanning left to right, each `<` that reaches a `>` on the same line opens
a non-greedy match that is deleted up to that first `>`; a `<` with no such
`>` is kept and scanning resumes at the next character. -/
def remove_html_tags : List Char → List Char
  | [] => []
  | c :: rest =>
    if c = '<' then
      match findGtIdx rest with
      | some n => remove_html_tags (rest.drop (n+1))
      | none => c :: remove_html_tags rest
    else c :: remove_html_tags rest
termination_by l => l.length
decreasing_by
  all_goals simp [List.length_drop]
  omega

/-- `str.lower` on one character (ASCII case mapping). -/
def lowerChar (c : Char) : Char :=
  if 65 ≤ c.toNat ∧ c.toNat ≤ 90 then Char.ofNat (c.toNat + 32) else c

/-- `DataCleaner.to_lowercase`, i.e. `text.lower()`. -/
def to_lowercase (text : List Char) : List Char :=
  text.map lowerChar

/-- Membership in the character class kept by
`DataCleaner.remove_special_characters`: the regex deletes everything
outside `[a-zA-Z\s]`, extended by `\d` exactly when `remove_digits` is
true (the source's naming is inverted that way). `\s` is the ASCII
whitespace class. -/
def keeps_char (remove_digits : Bool) (c : Char) : Bool :=
  decide (('a' ≤ c ∧ c ≤ 'z') ∨ ('A' ≤ c ∧ c ≤ 'Z') ∨
    c = ' ' ∨ c = '\t' ∨ c = '\n' ∨ c = '\r' ∨ c = '\x0b' ∨ c = '\x0c' ∨
    (remove_digits = true ∧ '0' ≤ c ∧ c ≤ '9'))

/-- `DataCleaner.remove_special_characters`. -/
def remove_special_characters (text : List Char) (remove_digits : Bool) : List Char :=
  text.filter (keeps_char remove_digits)

/-- The nltk-backed collaborators used by `remove_stopwords`, `stem_text`
and `lemmatize_text` (tokenizer, stop-word list, stemmer, lemmatizer are
external libraries). -/
structure NLTKOps where
  remove_stop_words : List Char → List Char
  stem_text : List Char → List Char
  lemmatize_text : List Char → List Char

/-- `DataCleaner.normalize_text`: the fixed, ordered, individually
toggleable pipeline strip-tags, strip-special-chars, lowercase,
stop-words, stem, lemmatize. -/
def normalize_text (ops : NLTKOps) (text : List Char)
    (remove_html remove_special_chars to_lower remove_stop use_stemming
      use_lemmatization : Bool) : List Char :=
  let t1 := if remove_html then remove_html_tags text else text
  let t2 := if remove_special_chars then remove_special_characters t1 false else t1
  let t3 := if to_lower then to_lowercase t2 else t2
  let t4 := if remove_stop then ops.remove_stop_words t3 else t3
  let t5 := if use_stemming then ops.stem_text t4 else t4
  if use_lemmatization then ops.lemmatize_text t5 else t5

/-! ## DataCleaner: DataFrame helpers

pandas objects are mutable Python objects, so frame identity matters for
the in-place/fresh distinction. DataFrames are therefore kept in an
explicit store (the heap); a reference is an index into it, method calls
take and return the store, and aliasing is observable as two call sites
sharing one index. -/

/-- One cell of a DataFrame: `none` is `NaN`/missing, `some` a text value. -/
abbrev Cell := Option (List Char)

/-- A pandas DataFrame: column names, the integer index labels, and the
rows (one list of cells per row, in column order). -/
structure DataFrame where
  cols : List String
  index : List Nat
  rows : List (List Cell)
deriving DecidableEq

/-- Placeholder frame for an invalid store reference. -/
def emptyDF : DataFrame := ⟨[], [], []⟩

/-- The heap of live DataFrame objects. -/
abbrev Store := List DataFrame

/-- `df.dropna()`: keep exactly the rows with no missing cell, retaining
their index labels. -/
def dropna (df : DataFrame) : DataFrame :=
  let kept := (df.index.zip df.rows).filter (fun p => p.2.all (fun c => c.isSome))
  ⟨df.cols, kept.map Prod.fst, kept.map Prod.snd⟩

/-- `df.reset_index(drop=True)`: renumber the index 0,1,2,.... -/
def reset_index (df : DataFrame) : DataFrame :=
  ⟨df.cols, List.range df.rows.length, df.rows⟩

/-- The value computed by `DataCleaner.clean_dataframe`:
`df.dropna().reset_index(drop=True)`. -/
def clean_dataframe_val (df : DataFrame) : DataFrame :=
  reset_index (dropna df)

/-- `df.drop_duplicates()` on (label, row) pairs: keep the first occurrence
of each row value, preserving order. -/
def dedup_rows : List (Nat × List Cell) → List (List Cell) → List (Nat × List Cell)
  | [], _ => []
  | p :: rest, seen =>
    if p.2 ∈ seen then dedup_rows rest seen else p :: dedup_rows rest (p.2 :: seen)

/-- The value computed by `DataCleaner.drop_duplicate_rows`:
`df.drop_duplicates().reset_index(drop=True)`. -/
def drop_duplicate_rows_val (df : DataFrame) : DataFrame :=
  let kept := dedup_rows (df.index.zip df.rows) []
  reset_index ⟨df.cols, kept.map Prod.fst, kept.map Prod.snd⟩

/-- Errors raised inside `DataCleaner.clean_column`: reading a missing
column (`df[column_name]`) raises `KeyError`, and `.apply` handing a
missing value (the float `NaN`) to `normalize_text` makes `re.sub` raise
`TypeError` ("expected string or bytes-like object"). -/
inductive CleanError where
  | keyError (column : String)
  | typeError
deriving DecidableEq

/-- `df[column_name].apply(lambda text: normalize_text(text, ...))`:
pandas applies the function element-wise from the top; the first `NaN`
cell reaches `re.sub` inside `normalize_text` and raises `TypeError`, so
the new series exists only when every cell holds text. -/
def apply_normalize (ops : NLTKOps)
    (remove_html remove_special_chars to_lower remove_stop use_stemming
      use_lemmatization : Bool) : List Cell → Except CleanError (List Cell)
  | [] => Except.ok []
  | none :: _ => Except.error CleanError.typeError
  | some t :: rest =>
    (apply_normalize ops remove_html remove_special_chars to_lower remove_stop
        use_stemming use_lemmatization rest).map
      (fun vs => some (normalize_text ops t remove_html remove_special_chars to_lower
        remove_stop use_stemming use_lemmatization) :: vs)

/-- The frame update `df[column_name] = df[column_name].apply(...)`:
reading a missing column raises `KeyError`; the `.apply` raises
`TypeError` on any `NaN` cell; both happen before the assignment, which
only on success rewrites the named column cell-wise. -/
def set_column (df : DataFrame) (column_name : String) (ops : NLTKOps)
    (remove_html remove_special_chars to_lower remove_stop use_stemming
      use_lemmatization : Bool) : Except CleanError DataFrame :=
  match df.cols.findIdx? (· = column_name) with
  | none => Except.error (CleanError.keyError column_name)
  | some i =>
    match apply_normalize ops remove_html remove_special_chars to_lower remove_stop
        use_stemming use_lemmatization
        (df.rows.map (fun row => (row[i]?).getD none)) with
    | Except.error e => Except.error e
    | Except.ok vals =>
      Except.ok ⟨df.cols, df.index, (df.rows.zip vals).map (fun p => p.1.set i p.2)⟩

/-- `DataCleaner.clean_column`: on success the argument frame is updated in
place (heap write at the argument reference) and that same reference is
returned; a `KeyError`/`TypeError` propagates before any assignment, so the
store is left unchanged on the error path. -/
def clean_column (s : Store) (r : Nat) (column_name : String) (ops : NLTKOps)
    (remove_html remove_special_chars to_lower remove_stop use_stemming
      use_lemmatization : Bool) : Except CleanError (Store × Nat) :=
  match set_column (s.getD r emptyDF) column_name ops remove_html remove_special_chars
      to_lower remove_stop use_stemming use_lemmatization with
  | Except.error e => Except.error e
  | Except.ok df2 => Except.ok (s.set r df2, r)

/-- `DataCleaner.clean_dataframe`: allocates and returns a fresh frame,
leaving the argument object untouched. -/
def clean_dataframe (s : Store) (r : Nat) : Store × Nat :=
  (s ++ [clean_dataframe_val (s.getD r emptyDF)], s.length)

/-- `DataCleaner.drop_duplicate_rows`: allocates and returns a fresh frame,
leaving the argument object untouched. -/
def drop_duplicate_rows (s : Store) (r : Nat) : Store × Nat :=
  (s ++ [drop_duplicate_rows_val (s.getD r emptyDF)], s.length)

/-! ## Concrete collaborators used to exercise the theorems -/

/-- A two-page link-based site: `u1` serves `P1`, everything else `P2`.
`urljoin` keeps the reference as-is, robots allows everything. -/
def ctxC1 : ScraperCtx String :=
  ⟨"base", fun _ => true,
   fun u _ _ => if u = "u1" then Except.ok "P1" else Except.ok "P2",
   fun _ href => href, id⟩

/-- Extraction: page `P1` yields `["a","b"]`, any other page `["c"]`. -/
def pfC1 : String → List String :=
  fun s => if s = "P1" then ["a", "b"] else ["c"]

/-- Next-anchor selector: `P1` links to `/p2`, other pages have no link. -/
def nhC1 : String → Option String :=
  fun s => if s = "P1" then some "/p2" else none

/-- A two-page numbered API: page 1 answers `["a","b"]` with a `next` link,
every other page `["c"]` without one. -/
def ctxC2 : ApiCtx :=
  ⟨fun r => if getKey r.params "page" = some (PValue.num 1)
      then Except.ok ⟨["a", "b"], true, []⟩
      else Except.ok ⟨["c"], false, []⟩,
   "http://api", [], "items", "GET", none, none, "page"⟩

/-- An API whose page 1 succeeds with a `next` link and whose page 2 request
fails at the transport. -/
def ctxC7 : ApiCtx :=
  ⟨fun r => if getKey r.params "page" = some (PValue.num 1)
      then Except.ok ⟨["a"], true, []⟩
      else Except.error ⟨"boom"⟩,
   "http://api", [], "items", "GET", none, none, "page"⟩

/-- A site whose first page succeeds and links onward, and whose second
fetch fails at the transport. -/
def sctxC7 : ScraperCtx String :=
  ⟨"base", fun _ => true,
   fun u _ _ => if u = "u1" then Except.ok "P1" else Except.error ⟨"down"⟩,
   fun _ href => href, id⟩

/-- A site whose robots policy denies every URL. -/
def ctxC4 : ScraperCtx String :=
  ⟨"b", fun _ => false, fun _ _ _ => Except.ok "", fun _ href => href, id⟩

/-- A stateful transport for the retry wrapper: attempts 0 and 1 fail,
attempt 2 succeeds. -/
def tC5 : Nat → Except ApiError (List String) :=
  fun k => if k = 0 then Except.error (ApiError.transport ⟨"e1"⟩)
    else if k = 1 then Except.error (ApiError.transport ⟨"e2"⟩)
    else Except.ok ["v"]

/-- A JSON parser that rejects the fragment `"bad"` and accepts anything
else verbatim. -/
def jlC8 : String → Except FormatError String :=
  fun s => if s = "bad" then Except.error ⟨"malformed"⟩ else Except.ok s

/-- Degenerate nltk collaborators (identity transforms). -/
def opsId : NLTKOps := ⟨id, id, id⟩

/-- A one-column, one-row frame holding the text `"A"`. -/
def dfW : DataFrame := ⟨["t"], [0], [[some ['A']]]⟩

/-- A one-column, one-row frame whose only cell is missing (`NaN`). -/
def dfN : DataFrame := ⟨["t"], [0], [[none]]⟩

/-! ## Helper lemmas -/

/-- Overwriting the same dict key twice keeps only the last value. -/
theorem setKey_setKey (p : Params) (k : String) (v w : PValue) :
    setKey (setKey p k v) k w = setKey p k w := by
  induction p with
  | nil => simp [setKey]
  | cons hd tl ih =>
    by_cases h : hd.1 = k
    · simp [setKey, h]
    · simp [setKey, h, ih]

/-- A well-formed chain contains at least one page. -/
theorem ApiChain.length_pos {ctx : ApiCtx} {initP : Params} {page : Nat}
    {resps : List ApiResponse} (h : ApiChain ctx initP page resps) :
    1 ≤ resps.length := by
  cases h <;> simp

/-- Master lemma for the numbered pagination loop: on a well-formed chain
the loop returns the concatenated items, the trace of requests carries the
page counter `page + k` on the `k`-th request, and the final dict holds the
last page number. -/
theorem fetch_paginated_loop_chain (ctx : ApiCtx) (initP : Params) :
    ∀ (page : Nat) (resps : List ApiResponse), ApiChain ctx initP page resps →
    ∀ (fuel : Nat), resps.length ≤ fuel →
    ∀ (params : Params) (acc : List String) (trace : List Params),
    (∀ v, setKey params ctx.next_page_param v = setKey initP ctx.next_page_param v) →
    fetch_paginated_loop ctx fuel page params acc trace =
      some (setKey initP ctx.next_page_param (PValue.num (page + (resps.length - 1))),
            trace ++ (List.range resps.length).map
              (fun k => setKey initP ctx.next_page_param (PValue.num (page + k))),
            Except.ok (acc ++ (resps.map ApiResponse.items).flatten)) := by
  intro page resps hch
  induction hch with
  | last p r hreq hnext =>
    intro fuel hf params acc trace hp
    simp only [page_request] at hreq
    cases fuel with
    | zero => simp at hf
    | succ f =>
      simp only [fetch_paginated_loop, hp, hreq, hnext]
      simp [show List.range 1 = [0] from rfl]
  | step p r rest hreq hnext hrest ih =>
    intro fuel hf params acc trace hp
    simp only [page_request] at hreq
    cases fuel with
    | zero => simp at hf
    | succ f =>
      simp only [fetch_paginated_loop, hp, hreq, hnext, if_true]
      have hrec := ih f (by simp only [List.length_cons] at hf; omega)
        (setKey initP ctx.next_page_param (PValue.num p)) (acc ++ r.items)
        (trace ++ [setKey initP ctx.next_page_param (PValue.num p)])
        (fun v => setKey_setKey initP ctx.next_page_param (PValue.num p) v)
      rw [hrec]
      have hlen := hrest.length_pos
      have h1 : p + 1 + (rest.length - 1) = p + ((r :: rest).length - 1) := by
        simp only [List.length_cons]; omega
      have h2 : (List.range rest.length).map
            (fun k => setKey initP ctx.next_page_param (PValue.num (p + 1 + k)))
          = (List.range rest.length).map
            (fun k => setKey initP ctx.next_page_param (PValue.num (p + (k + 1)))) := by
        apply List.map_congr_left
        intro a _
        congr 2
        omega
      rw [h1, h2]
      simp [List.range_succ_eq_map, List.map_map, List.append_assoc, Function.comp_def]

/-- An aborting run contains at least one request. -/
theorem ApiAbort.one_le {ctx : ApiCtx} {initP : Params} {page n : Nat} {e : ApiError}
    (h : ApiAbort ctx initP page n e) : 1 ≤ n := by
  cases h <;> omega

/-- When the chain of requests reaches a failing fetch, the numbered
pagination loop surfaces that error and returns no items at all, whatever
was already accumulated; the final dict holds the failing request's page
number and the trace lists every request sent. -/
theorem fetch_paginated_loop_abort (ctx : ApiCtx) (initP : Params) :
    ∀ (page n : Nat) (e : ApiError), ApiAbort ctx initP page n e →
    ∀ (fuel : Nat), n ≤ fuel →
    ∀ (params : Params) (acc : List String) (trace : List Params),
    (∀ v, setKey params ctx.next_page_param v = setKey initP ctx.next_page_param v) →
    fetch_paginated_loop ctx fuel page params acc trace
      = some (setKey initP ctx.next_page_param (PValue.num (page + (n - 1))),
              trace ++ (List.range n).map (fun k =>
                setKey initP ctx.next_page_param (PValue.num (page + k))),
              Except.error e) := by
  intro page n e hab
  induction hab with
  | here p e hreq =>
    intro fuel hf params acc trace hp
    simp only [page_request] at hreq
    cases fuel with
    | zero => omega
    | succ f =>
      simp only [fetch_paginated_loop, hp, hreq]
      simp [show List.range 1 = [0] from rfl]
  | step p m r e hreq hnext hrest ih =>
    intro fuel hf params acc trace hp
    simp only [page_request] at hreq
    cases fuel with
    | zero => omega
    | succ f =>
      simp only [fetch_paginated_loop, hp, hreq, hnext, if_true]
      rw [ih f (by omega) (setKey initP ctx.next_page_param (PValue.num p))
        (acc ++ r.items) (trace ++ [setKey initP ctx.next_page_param (PValue.num p)])
        (fun v => setKey_setKey initP ctx.next_page_param (PValue.num p) v)]
      have hm := hrest.one_le
      have h1 : p + 1 + (m - 1) = p + (m + 1 - 1) := by omega
      have h2 : (List.range m).map
            (fun k => setKey initP ctx.next_page_param (PValue.num (p + 1 + k)))
          = (List.range m).map
            (fun k => setKey initP ctx.next_page_param (PValue.num (p + (k + 1)))) := by
        apply List.map_congr_left
        intro a _
        congr 2
        omega
      rw [h1, h2]
      simp [List.range_succ_eq_map, List.map_map, List.append_assoc, Function.comp_def]

/-- Master lemma for the link-based pagination loop: on a well-formed chain
it returns the pages' extracted items concatenated in page-then-item order,
appended to whatever was already accumulated. -/
theorem handle_pagination_chain_aux {Soup Item : Type} (ctx : ScraperCtx Soup)
    (parser_func : Soup → List Item) (next_href : Soup → Option String)
    (params : Params) (method : String) :
    ∀ (url : String) (pages : List (List Item)),
    ScrapeChain ctx parser_func next_href params method url pages →
    ∀ (fuel : Nat), pages.length ≤ fuel → ∀ (acc : List Item),
    handle_pagination ctx parser_func next_href params method fuel url acc
      = some (Except.ok (acc ++ pages.flatten)) := by
  intro url pages hch
  induction hch with
  | last u html hu hfetch hnone =>
    intro fuel hf acc
    cases fuel with
    | zero => simp at hf
    | succ f =>
      simp only [handle_pagination, if_neg hu, hfetch, hnone]
      simp
  | step u html href rest hu hfetch hsome hhref hrest ih =>
    intro fuel hf acc
    cases fuel with
    | zero => simp at hf
    | succ f =>
      simp only [handle_pagination, if_neg hu, hfetch, hsome, if_neg hhref]
      rw [ih f (by simp only [List.length_cons] at hf; omega)]
      simp

/-- When the chain of link-based fetches reaches a failing one, the
pagination loop surfaces that error and returns no items at all. -/
theorem handle_pagination_abort_aux {Soup Item : Type} (ctx : ScraperCtx Soup)
    (parser_func : Soup → List Item) (next_href : Soup → Option String)
    (params : Params) (method : String) :
    ∀ (url : String) (n : Nat) (e : ScrapeError),
    ScrapeAbort ctx parser_func next_href params method url n e →
    ∀ (fuel : Nat), n ≤ fuel → ∀ (acc : List Item),
    handle_pagination ctx parser_func next_href params method fuel url acc
      = some (Except.error e) := by
  intro url n e hab
  induction hab with
  | here u e hu hfetch =>
    intro fuel hf acc
    cases fuel with
    | zero => omega
    | succ f =>
      simp only [handle_pagination, if_neg hu, hfetch]
  | step u html href m e hu hfetch hsome hhref hrest ih =>
    intro fuel hf acc
    cases fuel with
    | zero => omega
    | succ f =>
      simp only [handle_pagination, if_neg hu, hfetch, hsome, if_neg hhref]
      exact ih f (by omega) _

/-- The retry loop under an all-failing transport: starting the loop at
`attempt` with a consistent remaining budget ends with the error of the
last attempt. -/
theorem retry_go_all_fail (t : Nat → Except ApiError (List String)) (retries : Nat) :
    ∀ (remaining attempt : Nat), attempt + remaining = retries → 1 ≤ remaining →
    (∀ k, attempt ≤ k → k < retries → ∃ e, t k = Except.error (ApiError.transport e)) →
    ∃ e, t (retries - 1) = Except.error (ApiError.transport e) ∧
      retry_go t retries attempt remaining
        = some (Except.error (ApiError.transport e)) := by
  intro remaining
  induction remaining with
  | zero => omega
  | succ m ih =>
    intro attempt hsum _ hfail
    obtain ⟨e, he⟩ := hfail attempt (Nat.le_refl _) (by omega)
    by_cases hm : m = 0
    · subst hm
      refine ⟨e, ?_, ?_⟩
      · rw [show retries - 1 = attempt by omega]
        exact he
      · simp [retry_go, he, show attempt + 1 = retries by omega]
    · obtain ⟨e2, he2, hrun⟩ := ih (attempt+1) (by omega) (by omega)
        (fun k hk1 hk2 => hfail k (by omega) hk2)
      refine ⟨e2, he2, ?_⟩
      simp [retry_go, he, show ¬(attempt + 1 = retries) by omega, hrun]

/-- `Char.ofNat` round-trips on the lowercase ASCII range produced by the
case mapping. -/
theorem char_ofNat_toNat_upper (n : Nat) (h1 : 65 ≤ n) (h2 : n ≤ 90) :
    (Char.ofNat (n + 32)).toNat = n + 32 := by
  interval_cases n <;> decide

/-- Lowercasing an uppercase letter lands in the lowercase ASCII range. -/
theorem lowerChar_toNat_of_upper {c : Char} (h : 65 ≤ c.toNat ∧ c.toNat ≤ 90) :
    (lowerChar c).toNat = c.toNat + 32 := by
  rw [lowerChar, if_pos h]
  exact char_ofNat_toNat_upper c.toNat h.1 h.2

/-- Lowercasing fixes every character that is not an uppercase letter. -/
theorem lowerChar_eq_self {c : Char} (h : ¬(65 ≤ c.toNat ∧ c.toNat ≤ 90)) :
    lowerChar c = c := if_neg h

/-- The ASCII case mapping is idempotent. -/
theorem lowerChar_idem (c : Char) : lowerChar (lowerChar c) = lowerChar c := by
  by_cases h : 65 ≤ c.toNat ∧ c.toNat ≤ 90
  · have h2 := lowerChar_toNat_of_upper h
    apply lowerChar_eq_self
    omega
  · rw [lowerChar_eq_self h]
    exact lowerChar_eq_self h

/-- For a target below the uppercase range (such as `<`, `>`, newline),
lowercasing neither creates nor destroys occurrences. -/
theorem lowerChar_eq_low_iff (c d : Char) (hd : d.toNat < 65) :
    lowerChar c = d ↔ c = d := by
  by_cases h : 65 ≤ c.toNat ∧ c.toNat ≤ 90
  · have h2 := lowerChar_toNat_of_upper h
    constructor
    · intro he
      exfalso
      rw [he] at h2
      omega
    · intro he
      exfalso
      subst he
      omega
  · rw [lowerChar_eq_self h]

/-- The lazy tag search only looks at `>` and newline positions, which the
case mapping preserves. -/
theorem findGtIdx_map_lower (l : List Char) :
    findGtIdx (l.map lowerChar) = findGtIdx l := by
  induction l with
  | nil => rfl
  | cons c rest ih =>
    simp only [List.map_cons, findGtIdx, lowerChar_eq_low_iff c '>' (by decide),
      lowerChar_eq_low_iff c '\n' (by decide), ih]

/-- Tag stripping commutes with lowercasing. -/
theorem remove_html_tags_map_lower (l : List Char) :
    remove_html_tags (l.map lowerChar) = (remove_html_tags l).map lowerChar := by
  have hlt : lowerChar '<' = '<' := by decide
  induction l using remove_html_tags.induct with
  | case1 => simp [remove_html_tags]
  | case2 rest n hm ih =>
    simp only [List.map_cons, hlt]
    rw [show remove_html_tags ('<' :: rest.map lowerChar)
        = remove_html_tags ((rest.map lowerChar).drop (n+1)) from by
      simp [remove_html_tags, findGtIdx_map_lower, hm]]
    rw [show remove_html_tags ('<' :: rest) = remove_html_tags (rest.drop (n+1)) from by
      simp [remove_html_tags, hm]]
    rw [show (rest.map lowerChar).drop (n+1) = (rest.drop (n+1)).map lowerChar from by
      simp [List.map_drop]]
    exact ih
  | case3 rest hm ih =>
    simp only [List.map_cons, hlt]
    rw [show remove_html_tags ('<' :: rest.map lowerChar)
        = '<' :: remove_html_tags (rest.map lowerChar) from by
      simp [remove_html_tags, findGtIdx_map_lower, hm]]
    rw [show remove_html_tags ('<' :: rest) = '<' :: remove_html_tags rest from by
      simp [remove_html_tags, hm]]
    simp only [List.map_cons, hlt, ih]
  | case4 c rest hne ih =>
    have hne2 : ¬lowerChar c = '<' := by
      rw [lowerChar_eq_low_iff c '<' (by decide)]
      exact hne
    simp only [List.map_cons]
    rw [show remove_html_tags (lowerChar c :: rest.map lowerChar)
        = lowerChar c :: remove_html_tags (rest.map lowerChar) from by
      simp [remove_html_tags, hne2]]
    rw [show remove_html_tags (c :: rest) = c :: remove_html_tags rest from by
      simp [remove_html_tags, hne]]
    simp only [List.map_cons, ih]

/-- If no `>` is reachable from the start of `l` without crossing a
newline, the same holds for the stripped text (stripping removes no
newline and inserts nothing). -/
theorem findGt_strip_none :
    ∀ l : List Char, findGtIdx l = none → findGtIdx (remove_html_tags l) = none := by
  intro l
  induction l using remove_html_tags.induct with
  | case1 =>
    intro _
    simp [remove_html_tags, findGtIdx]
  | case2 rest n hm ih =>
    intro h
    exfalso
    simp [findGtIdx, hm] at h
  | case3 rest hm ih =>
    intro h
    have h2 : findGtIdx rest = none := by
      simpa [findGtIdx] using h
    rw [show remove_html_tags ('<' :: rest) = '<' :: remove_html_tags rest from by
      simp [remove_html_tags, hm]]
    simp [findGtIdx, ih h2]
  | case4 c rest hne ih =>
    intro h
    by_cases hgt : c = '>'
    · subst hgt
      simp [findGtIdx] at h
    · by_cases hnl : c = '\n'
      · subst hnl
        rw [show remove_html_tags ('\n' :: rest) = '\n' :: remove_html_tags rest from by
          simp [remove_html_tags, hne]]
        simp [findGtIdx]
      · have h2 : findGtIdx rest = none := by
          simpa [findGtIdx, hgt, hnl] using h
        rw [show remove_html_tags (c :: rest) = c :: remove_html_tags rest from by
          simp [remove_html_tags, hne]]
        simp [findGtIdx, hgt, hnl, ih h2]

/-- Stripping tags is idempotent: the output of a pass contains no `<` that
still reaches a `>` on one line, so a second pass is the identity. -/
theorem remove_html_tags_idem (l : List Char) :
    remove_html_tags (remove_html_tags l) = remove_html_tags l := by
  induction l using remove_html_tags.induct with
  | case1 => simp [remove_html_tags]
  | case2 rest n hm ih =>
    rw [show remove_html_tags ('<' :: rest) = remove_html_tags (rest.drop (n+1)) from by
      simp [remove_html_tags, hm]]
    exact ih
  | case3 rest hm ih =>
    rw [show remove_html_tags ('<' :: rest) = '<' :: remove_html_tags rest from by
      simp [remove_html_tags, hm]]
    rw [show remove_html_tags ('<' :: remove_html_tags rest)
        = '<' :: remove_html_tags (remove_html_tags rest) from by
      simp [remove_html_tags, findGt_strip_none rest hm]]
    rw [ih]
  | case4 c rest hne ih =>
    rw [show remove_html_tags (c :: rest) = c :: remove_html_tags rest from by
      simp [remove_html_tags, hne]]
    rw [show remove_html_tags (c :: remove_html_tags rest)
        = c :: remove_html_tags (remove_html_tags rest) from by
      simp [remove_html_tags, hne]]
    rw [ih]

/-- Lowercasing a string is idempotent. -/
theorem to_lowercase_idem (l : List Char) :
    to_lowercase (to_lowercase l) = to_lowercase l := by
  simp [to_lowercase, List.map_map, Function.comp_def, lowerChar_idem]

/-- `.apply` succeeds on an all-text column and normalizes every cell. -/
theorem apply_normalize_all_some (ops : NLTKOps)
    (remove_html remove_special_chars to_lower remove_stop use_stemming
      use_lemmatization : Bool) :
    ∀ cells : List Cell, (∀ c ∈ cells, c.isSome = true) →
    apply_normalize ops remove_html remove_special_chars to_lower remove_stop
        use_stemming use_lemmatization cells
      = Except.ok (cells.map (Option.map (fun t => normalize_text ops t remove_html
          remove_special_chars to_lower remove_stop use_stemming use_lemmatization))) := by
  intro cells hall
  induction cells with
  | nil => rfl
  | cons c rest ih =>
    cases c with
    | none => simpa using hall none (by simp)
    | some t =>
      have ih2 := ih (fun c hc => hall c (List.mem_cons_of_mem _ hc))
      simp [apply_normalize, ih2, Except.map]

/-- Writing an element-wise applied column back over a zip is a per-row
update. -/
theorem zip_set_write (i : Nat) (f : List Cell → Cell) :
    ∀ rows : List (List Cell),
    (rows.zip (rows.map f)).map (fun p => p.1.set i p.2)
      = rows.map (fun row => row.set i (f row)) := by
  intro rows
  induction rows with
  | nil => rfl
  | cons row rest ih => simp [ih]

/-- On a present, all-text column the frame update succeeds and rewrites
exactly the named column, cell by cell. -/
theorem set_column_ok (df : DataFrame) (column_name : String) (ops : NLTKOps)
    (remove_html remove_special_chars to_lower remove_stop use_stemming
      use_lemmatization : Bool) (i : Nat)
    (hcol : df.cols.findIdx? (· = column_name) = some i)
    (htext : ∀ row ∈ df.rows, ((row[i]?).getD none).isSome = true) :
    set_column df column_name ops remove_html remove_special_chars to_lower
        remove_stop use_stemming use_lemmatization
      = Except.ok ⟨df.cols, df.index, df.rows.map (fun row =>
          row.set i (((row[i]?).getD none).map (fun t => normalize_text ops t
            remove_html remove_special_chars to_lower remove_stop use_stemming
            use_lemmatization)))⟩ := by
  have ha := apply_normalize_all_some ops remove_html remove_special_chars to_lower
    remove_stop use_stemming use_lemmatization
    (df.rows.map (fun row => (row[i]?).getD none))
    (by
      intro c hc
      obtain ⟨row, hrow, rfl⟩ := List.mem_map.mp hc
      exact htext row hrow)
  simp only [set_column, hcol, ha, List.map_map, Function.comp_def]
  rw [zip_set_write i
    (fun row => Option.map (fun t => normalize_text ops t remove_html
      remove_special_chars to_lower remove_stop use_stemming use_lemmatization)
      ((row[i]?).getD none)) df.rows]

/-! ## Claim theorems -/

/-- C1: For every well-formed multi-page source, the link-based pagination
loop `WebScraper.handle_pagination` returns the concatenation of each
page's extracted items in strict page-then-item order and stops exactly
when the fetched page has no `next` link. -/
theorem handle_pagination_by_link_order {Soup Item : Type} (ctx : ScraperCtx Soup)
    (parser_func : Soup → List Item) (next_href : Soup → Option String)
    (params : Params) (method : String) (url : String) (pages : List (List Item))
    (hch : ScrapeChain ctx parser_func next_href params method url pages)
    (fuel : Nat) (hf : pages.length ≤ fuel) :
    handle_pagination ctx parser_func next_href params method fuel url []
      = some (Except.ok pages.flatten) := by
  simpa using handle_pagination_chain_aux ctx parser_func next_href params method
    url pages hch fuel hf []

/-- Witness for C1, the spec's example: page 1 yields `["a","b"]` and links
to `/p2`, page 2 yields `["c"]` with no next link; the loop returns
`["a","b","c"]`. -/
theorem handle_pagination_by_link_order_witness :
    handle_pagination ctxC1 pfC1 nhC1 [] "GET" 2 "u1" []
      = some (Except.ok ["a", "b", "c"]) := by
  have hlast : ScrapeChain ctxC1 pfC1 nhC1 [] "GET" "/p2" [["c"]] :=
    ScrapeChain.last "/p2" "P2" (by decide) rfl rfl
  have hch : ScrapeChain ctxC1 pfC1 nhC1 [] "GET" "u1" [["a", "b"], ["c"]] :=
    ScrapeChain.step "u1" "P1" "/p2" [["c"]] (by decide) rfl rfl (by decide) hlast
  exact handle_pagination_by_link_order ctxC1 pfC1 nhC1 [] "GET" "u1"
    [["a", "b"], ["c"]] hch 2 (by decide)

/-- C2: With page-number continuation, the `k`-th request of
`APIFetcher.fetch_paginated_data` (k = 1, 2, ...) carries the configured
query parameter equal to `start_page + k - 1` (the counter moves up by one
per fetch), the loop stops exactly on the response without a `next` link
relation (never on an empty page, which the chain permits), and the result
is the concatenation of the fetched pages' items in fetch order. -/
theorem fetch_paginated_data_page_numbering (ctx : ApiCtx) (start_page : Nat)
    (callerParams : Option Params) (resps : List ApiResponse) (fuel : Nat)
    (hch : ApiChain ctx (callerParams.getD []) start_page resps)
    (hf : resps.length ≤ fuel) :
    fetch_paginated_data ctx start_page callerParams fuel
      = some (setKey (callerParams.getD []) ctx.next_page_param
                (PValue.num (start_page + (resps.length - 1))),
              (List.range resps.length).map (fun k =>
                setKey (callerParams.getD []) ctx.next_page_param
                  (PValue.num (start_page + k))),
              Except.ok ((resps.map ApiResponse.items).flatten)) := by
  have h := fetch_paginated_loop_chain ctx (callerParams.getD []) start_page resps hch
    fuel hf (callerParams.getD []) [] [] (fun v => rfl)
  simpa [fetch_paginated_data] using h

/-- Witness for C2: a two-page numbered run sends `page=1` then `page=2`
and returns both pages' items in order. -/
theorem fetch_paginated_data_page_numbering_witness :
    fetch_paginated_data ctxC2 1 none 2
      = some ([("page", PValue.num 2)],
              [[("page", PValue.num 1)], [("page", PValue.num 2)]],
              Except.ok ["a", "b", "c"]) := by
  have hch : ApiChain ctxC2 [] 1 [⟨["a", "b"], true, []⟩, ⟨["c"], false, []⟩] :=
    ApiChain.step 1 ⟨["a", "b"], true, []⟩ [⟨["c"], false, []⟩] rfl rfl
      (ApiChain.last 2 ⟨["c"], false, []⟩ rfl rfl)
  have h := fetch_paginated_data_page_numbering ctxC2 1 none
    [⟨["a", "b"], true, []⟩, ⟨["c"], false, []⟩] 2 hch (by decide)
  simpa using h

/-- C3 counterexample: the caller's params mapping is not left unchanged.
With the two-page source and caller mapping `{q: x}`, the mapping the
caller observes after the call additionally holds `page = 2`. -/
theorem fetch_paginated_params_mutated_cex :
    (fetch_paginated_data ctxC2 1 (some [("q", PValue.str "x")]) 2).map
        (fun out => caller_params_after (some [("q", PValue.str "x")]) out.1)
      = some (some [("q", PValue.str "x"), ("page", PValue.num 2)]) ∧
    some (some [("q", PValue.str "x"), ("page", PValue.num 2)])
      ≠ some (some ([("q", PValue.str "x")] : Params)) := by
  exact ⟨rfl, by decide⟩

/-- C3 as amended: the request descriptor is not immutable per call — a
caller passing a non-empty params mapping sees it mutated in place, both
when the call returns (the mapping ends with the page parameter bound to
the last requested page number) and when it raises on a failed fetch (the
mapping ends with the failing request's page number); only a caller
passing no mapping (or an empty one) observes no change. -/
theorem fetch_paginated_data_params_after_call (ctx : ApiCtx) (start_page fuel : Nat)
    (l : Params) (hl : l ≠ []) :
    (∀ resps : List ApiResponse, ApiChain ctx l start_page resps →
      resps.length ≤ fuel →
      (fetch_paginated_data ctx start_page (some l) fuel).map
          (fun out => caller_params_after (some l) out.1)
        = some (some (setKey l ctx.next_page_param
            (PValue.num (start_page + (resps.length - 1)))))) ∧
    (∀ (n : Nat) (e : ApiError), ApiAbort ctx l start_page n e → n ≤ fuel →
      (fetch_paginated_data ctx start_page (some l) fuel).map
          (fun out => caller_params_after (some l) out.1)
        = some (some (setKey l ctx.next_page_param
            (PValue.num (start_page + (n - 1)))))) ∧
    (∀ p : Params, caller_params_after none p = none) ∧
    (∀ p : Params, caller_params_after (some []) p = some []) := by
  have h2 : fetch_paginated_data ctx start_page (some l) fuel
      = fetch_paginated_loop ctx fuel start_page l [] [] := rfl
  refine ⟨?_, ?_, fun p => rfl, fun p => rfl⟩
  · intro resps hch hf
    have h := fetch_paginated_loop_chain ctx l start_page resps hch fuel hf l [] []
      (fun v => rfl)
    rw [h2, h]
    simp [caller_params_after, hl]
  · intro n e hab hf
    have h := fetch_paginated_loop_abort ctx l start_page n e hab fuel hf l [] []
      (fun v => rfl)
    rw [h2, h]
    simp [caller_params_after, hl]

/-- Witness for the amended C3: the caller's `{q: x}` ends as
`{q: x, page: 2}` both after the returning two-page run and after the run
whose second fetch raises. -/
theorem fetch_paginated_data_params_after_call_witness :
    (fetch_paginated_data ctxC2 1 (some [("q", PValue.str "x")]) 2).map
        (fun out => caller_params_after (some [("q", PValue.str "x")]) out.1)
      = some (some [("q", PValue.str "x"), ("page", PValue.num 2)]) ∧
    (fetch_paginated_data ctxC7 1 (some [("q", PValue.str "x")]) 2).map
        (fun out => caller_params_after (some [("q", PValue.str "x")]) out.1)
      = some (some [("q", PValue.str "x"), ("page", PValue.num 2)]) := by
  have hch : ApiChain ctxC2 [("q", PValue.str "x")] 1
      [⟨["a", "b"], true, []⟩, ⟨["c"], false, []⟩] :=
    ApiChain.step 1 ⟨["a", "b"], true, []⟩ [⟨["c"], false, []⟩] rfl rfl
      (ApiChain.last 2 ⟨["c"], false, []⟩ rfl rfl)
  have hab : ApiAbort ctxC7 [("q", PValue.str "x")] 1 2 (ApiError.transport ⟨"boom"⟩) :=
    ApiAbort.step 1 1 ⟨["a"], true, []⟩ (ApiError.transport ⟨"boom"⟩) rfl rfl
      (ApiAbort.here 2 (ApiError.transport ⟨"boom"⟩) rfl)
  constructor
  · have h := (fetch_paginated_data_params_after_call ctxC2 1 2
      [("q", PValue.str "x")] (by decide)).1
      [⟨["a", "b"], true, []⟩, ⟨["c"], false, []⟩] hch (by decide)
    exact h
  · have h := (fetch_paginated_data_params_after_call ctxC7 1 2
      [("q", PValue.str "x")] (by decide)).2.1
      2 (ApiError.transport ⟨"boom"⟩) hab (by decide)
    exact h

/-- C4: When the robots policy denies the joined target URL,
`WebScraper.fetch_page` fails with the policy error (`PermissionError`,
the spec's `PolicyError`) and performs no network call; moreover any call
that does reach the network was approved by the policy first. -/
theorem fetch_page_policy_denied {Soup : Type} (ctx : ScraperCtx Soup) (url : String)
    (params : Params) (method : String)
    (hdeny : ctx.robots_ok (ctx.urljoin ctx.base_url url) = false) :
    fetch_page ctx url params method
      = ([], Except.error (ScrapeError.policy (ctx.urljoin ctx.base_url url))) ∧
    (∀ (u : String) (p : Params) (m : String), (fetch_page ctx u p m).1 ≠ [] →
      ctx.robots_ok (ctx.urljoin ctx.base_url u) = true) := by
  constructor
  · simp [fetch_page, hdeny]
  · intro u p m hne
    by_cases h : ctx.robots_ok (ctx.urljoin ctx.base_url u) = false
    · exfalso
      apply hne
      simp [fetch_page, h]
    · simpa using h

/-- Witness for C4: with an all-denying policy the fetch returns the policy
error and an empty call trace. -/
theorem fetch_page_policy_denied_witness :
    fetch_page ctxC4 "u" [] "GET" = ([], Except.error (ScrapeError.policy "u")) := by
  exact (fetch_page_policy_denied ctxC4 "u" [] "GET" rfl).1

/-- C5: For a transport failing on the first two attempts and succeeding on
the third, `APIFetcher.fetch_data_with_retry` with `retries=3` returns the
success and with `retries=2` re-raises the second attempt's error; in
general, when every attempt fails the wrapper reports the last error. -/
theorem fetch_data_with_retry_behavior (t : Nat → Except ApiError (List String))
    (e1 e2 : TransportError) (v : List String)
    (h0 : t 0 = Except.error (ApiError.transport e1))
    (h1 : t 1 = Except.error (ApiError.transport e2))
    (h2 : t 2 = Except.ok v) :
    fetch_data_with_retry t 3 = some (Except.ok v) ∧
    fetch_data_with_retry t 2 = some (Except.error (ApiError.transport e2)) ∧
    (∀ (t2 : Nat → Except ApiError (List String)) (n : Nat), 0 < n →
      (∀ k, k < n → ∃ e, t2 k = Except.error (ApiError.transport e)) →
      ∃ e, t2 (n-1) = Except.error (ApiError.transport e) ∧
        fetch_data_with_retry t2 n = some (Except.error (ApiError.transport e))) := by
  refine ⟨?_, ?_, ?_⟩
  · simp [fetch_data_with_retry, retry_go, h0, h1, h2]
  · simp [fetch_data_with_retry, retry_go, h0, h1]
  · intro t2 n hn hfail
    exact retry_go_all_fail t2 n n 0 (by omega) (by omega) (fun k _ hk => hfail k hk)

/-- Witness for C5 at the concrete fail-fail-succeed transport. -/
theorem fetch_data_with_retry_behavior_witness :
    fetch_data_with_retry tC5 3 = some (Except.ok ["v"]) ∧
    fetch_data_with_retry tC5 2
      = some (Except.error (ApiError.transport ⟨"e2"⟩)) := by
  have h := fetch_data_with_retry_behavior tC5 ⟨"e1"⟩ ⟨"e2"⟩ ["v"] rfl rfl rfl
  exact ⟨h.1, h.2.1⟩

/-- C6 (code bug): `_make_request` dispatches only GET/POST/PUT/DELETE, so
the HEAD request that `APIFetcher.fetch_headers` issues always raises the
unsupported-method `ValueError` instead of returning the response headers
as the spec requires. -/
theorem fetch_headers_head_unsupported
    (transport : ApiRequest → Except TransportError ApiResponse)
    (req_headers : List (String × String)) (base_url endpoint : String)
    (params : Params) :
    fetch_headers transport req_headers base_url endpoint params
      = Except.error (ApiError.unsupportedMethod "HEAD") ∧
    (∀ (url : String) (payload jsonBody : Option String),
      make_request transport req_headers url params "HEAD" payload jsonBody
        = Except.error (ApiError.unsupportedMethod "HEAD")) := by
  exact ⟨rfl, fun url payload jsonBody => rfl⟩

/-- C7: A fetch failure on any page aborts the whole paginated operation in
both loops: the transport error propagates and no partial accumulation is
returned. -/
theorem pagination_abort_on_fetch_failure
    (ctx : ApiCtx) (start_page : Nat) (callerParams : Option Params) (n : Nat)
    (e : ApiError) (fuel : Nat)
    (hab : ApiAbort ctx (callerParams.getD []) start_page n e) (hf : n ≤ fuel)
    {Soup Item : Type} (sctx : ScraperCtx Soup) (parser_func : Soup → List Item)
    (next_href : Soup → Option String) (sparams : Params) (smethod surl : String)
    (sn : Nat) (se : ScrapeError) (sfuel : Nat)
    (hsab : ScrapeAbort sctx parser_func next_href sparams smethod surl sn se)
    (hsf : sn ≤ sfuel) :
    (∃ ps tr, fetch_paginated_data ctx start_page callerParams fuel
        = some (ps, tr, Except.error e)) ∧
    handle_pagination sctx parser_func next_href sparams smethod sfuel surl []
      = some (Except.error se) := by
  constructor
  · have h := fetch_paginated_loop_abort ctx (callerParams.getD []) start_page n e hab
      fuel hf (callerParams.getD []) [] [] (fun v => rfl)
    exact ⟨_, _, by simpa [fetch_paginated_data] using h⟩
  · exact handle_pagination_abort_aux sctx parser_func next_href sparams smethod
      surl sn se hsab sfuel hsf []

/-- Witness for C7: page 1 succeeds with items, page 2 fails — both loops
end in the transport error, losing page 1's items. -/
theorem pagination_abort_on_fetch_failure_witness :
    (∃ ps tr, fetch_paginated_data ctxC7 1 none 2
        = some (ps, tr, Except.error (ApiError.transport ⟨"boom"⟩))) ∧
    handle_pagination sctxC7 pfC1 nhC1 [] "GET" 2 "u1" []
      = some (Except.error (ScrapeError.transport ⟨"down"⟩)) := by
  have hab : ApiAbort ctxC7 [] 1 2 (ApiError.transport ⟨"boom"⟩) :=
    ApiAbort.step 1 1 ⟨["a"], true, []⟩ (ApiError.transport ⟨"boom"⟩) rfl rfl
      (ApiAbort.here 2 (ApiError.transport ⟨"boom"⟩) rfl)
  have hsab : ScrapeAbort sctxC7 pfC1 nhC1 [] "GET" "u1" 2
      (ScrapeError.transport ⟨"down"⟩) :=
    ScrapeAbort.step "u1" "P1" "/p2" 1 (ScrapeError.transport ⟨"down"⟩) (by decide)
      rfl rfl (by decide)
      (ScrapeAbort.here "/p2" (ScrapeError.transport ⟨"down"⟩) (by decide) rfl)
  exact pagination_abort_on_fetch_failure ctxC7 1 none 2
    (ApiError.transport ⟨"boom"⟩) 2 hab (by decide) sctxC7 pfC1 nhC1 [] "GET" "u1" 2
    (ScrapeError.transport ⟨"down"⟩) 2 hsab (by decide)

/-- C8 counterexample: the claim that a malformed JSON-LD fragment makes
the format error propagate is false — `extract_json_ld` silently skips the
unparseable block and returns the remaining ones. -/
theorem extract_json_ld_skips_malformed_cex :
    jlC8 "bad" = Except.error ⟨"malformed"⟩ ∧
    extract_json_ld jlC8 ["bad", "good"] = ["good"] := by
  exact ⟨rfl, rfl⟩

/-- C8 as amended: `WebScraper.extract_json_ld` catches the JSON decode
error per script block and continues, returning exactly the successfully
parsed blocks in document order; it never propagates a format error. -/
theorem extract_json_ld_collects_successes {J : Type}
    (json_loads : String → Except FormatError J) (scripts : List String) :
    extract_json_ld json_loads scripts
      = scripts.filterMap (fun s => (json_loads s).toOption) := by
  induction scripts with
  | nil => rfl
  | cons s rest ih =>
    cases h : json_loads s <;>
      simp [extract_json_ld, h, ih, Except.toOption]

/-- C9: `DataCleaner.normalize_text` with only strip-tags and lowercase
enabled (`remove_html=True`, `to_lower=True`, all other toggles `False`)
is idempotent. -/
theorem normalize_text_idempotent_strip_lower (ops : NLTKOps) (text : List Char) :
    normalize_text ops (normalize_text ops text true false true false false false)
        true false true false false false
      = normalize_text ops text true false true false false false := by
  show to_lowercase (remove_html_tags (to_lowercase (remove_html_tags text)))
      = to_lowercase (remove_html_tags text)
  simp only [to_lowercase]
  rw [remove_html_tags_map_lower, remove_html_tags_idem]
  simp [List.map_map, Function.comp_def, lowerChar_idem]

/-- C10 counterexample: `clean_column` does not mutate-and-return for
every DataFrame and column name — a missing column raises `KeyError` and
a `NaN` cell makes the `.apply` raise `TypeError`, in both cases before
any assignment, so no frame is written and no reference is returned. -/
theorem clean_column_raises_cex :
    clean_column [dfW] 0 "absent" opsId true true true true false false
      = Except.error (CleanError.keyError "absent") ∧
    clean_column [dfN] 0 "t" opsId true true true true false false
      = Except.error CleanError.typeError := by
  exact ⟨rfl, rfl⟩

/-- C10 as amended: whenever the named column exists and holds only text
values, `DataCleaner.clean_column` mutates the caller's frame in place —
the store is updated at the argument reference with the normalized column
and that same reference is returned, every other object untouched — while
`clean_dataframe` and `drop_duplicate_rows` return fresh frames and leave
the argument object unchanged; on a missing column or a `NaN` cell,
`clean_column` raises (`KeyError`/`TypeError`) before mutating anything. -/
theorem clean_column_in_place_vs_fresh (s : Store) (r : Nat) (column_name : String)
    (ops : NLTKOps) (remove_html remove_special_chars to_lower remove_stop
      use_stemming use_lemmatization : Bool) (hr : r < s.length) (i : Nat)
    (hcol : (s.getD r emptyDF).cols.findIdx? (· = column_name) = some i)
    (htext : ∀ row ∈ (s.getD r emptyDF).rows, ((row[i]?).getD none).isSome = true) :
    (∃ df2 : DataFrame,
      df2 = ⟨(s.getD r emptyDF).cols, (s.getD r emptyDF).index,
        (s.getD r emptyDF).rows.map (fun row =>
          row.set i (((row[i]?).getD none).map (fun t => normalize_text ops t
            remove_html remove_special_chars to_lower remove_stop use_stemming
            use_lemmatization)))⟩ ∧
      clean_column s r column_name ops remove_html remove_special_chars to_lower
          remove_stop use_stemming use_lemmatization
        = Except.ok (s.set r df2, r) ∧
      (s.set r df2)[r]? = some df2 ∧
      (∀ j, j ≠ r → (s.set r df2)[j]? = s[j]?)) ∧
    ((clean_dataframe s r).2 ≠ r ∧
     (clean_dataframe s r).1[r]? = s[r]? ∧
     (clean_dataframe s r).1[(clean_dataframe s r).2]?
        = some (clean_dataframe_val (s.getD r emptyDF))) ∧
    ((drop_duplicate_rows s r).2 ≠ r ∧
     (drop_duplicate_rows s r).1[r]? = s[r]? ∧
     (drop_duplicate_rows s r).1[(drop_duplicate_rows s r).2]?
        = some (drop_duplicate_rows_val (s.getD r emptyDF))) := by
  refine ⟨⟨_, rfl, ?_, ?_, ?_⟩, ⟨?_, ?_, ?_⟩, ⟨?_, ?_, ?_⟩⟩
  · simp only [clean_column, set_column_ok (s.getD r emptyDF) column_name ops
      remove_html remove_special_chars to_lower remove_stop use_stemming
      use_lemmatization i hcol htext]
  · simp [List.getElem?_set_self, hr]
  · intro j hj
    simp [List.getElem?_set_ne (Ne.symm hj)]
  · simp only [clean_dataframe]
    omega
  · simp [clean_dataframe, List.getElem?_append_left hr]
  · simp [clean_dataframe, List.getElem?_concat_length]
  · simp only [drop_duplicate_rows]
    omega
  · simp [drop_duplicate_rows, List.getElem?_append_left hr]
  · simp [drop_duplicate_rows, List.getElem?_concat_length]

/-- Witness for the amended C10 on a one-frame store with present all-text
column: `clean_column` succeeds and hands back the argument reference with
the store written at it, the other two return a fresh reference. -/
theorem clean_column_in_place_vs_fresh_witness :
    (∃ df2 : DataFrame, clean_column [dfW] 0 "t" opsId true true true true false false
        = Except.ok ([dfW].set 0 df2, 0)) ∧
    (clean_dataframe [dfW] 0).2 ≠ 0 ∧
    (drop_duplicate_rows [dfW] 0).2 ≠ 0 := by
  have h := clean_column_in_place_vs_fresh [dfW] 0 "t" opsId true true true true
    false false (by decide) 0 (by decide) (by decide)
  obtain ⟨⟨df2, hdf, h1, h2, h3⟩, hb, hc⟩ := h
  exact ⟨⟨df2, h1⟩, hb.1, hc.1⟩

end DataScraping
